import Mathlib

/-!
Verification of the PandaDoc-GUI server (src/server.js) against its
natural-language specification.  The server-side logic is embedded
shallowly: `buildPandocCommand`, `convertFile`, the single-file handler
(`POST /api/convert`), the batch handler (`POST /api/convert-batch`)
and `getOutputExtension` are translated into pure Lean functions.  The
external `pandoc` subprocess is modelled by an oracle
`run : String → ExecResult` mapping the command line to the callback
arguments `(error, stdout, stderr)` that `child_process.exec` would
deliver, and the filesystem side effects of a request are tracked
explicitly as the list of this request's files still on disk when the
request completes.
-/

/-- The user-toggleable rendering options, parsed server-side from the
JSON `options` form field (truthiness of each field is modelled as a
`Bool`). -/
structure OptionSet where
  toc : Bool := false
  numberSections : Bool := false
  css : Bool := false
  bibliography : Bool := false
deriving Repr, DecidableEq

/-- Embedding of `buildPandocCommand` (server.js lines 58-119): the
command line is built by string concatenation, each flag appended under
exactly the condition the source tests. -/
def buildPandocCommand (inputPath outputPath fromFormat toFormat : String)
    (options : OptionSet) : String :=
  let cmd := "pandoc \x22" ++ inputPath ++ "\x22 -f " ++ fromFormat ++ " -t " ++ toFormat
    ++ " -o \x22" ++ outputPath ++ "\x22"
  let cmd := if (["html", "docx", "odt", "epub", "pdf"] : List String).contains toFormat then
    cmd ++ " --standalone" else cmd
  let cmd := if options.toc && (["html", "pdf", "docx", "epub"] : List String).contains toFormat then
    cmd ++ " --toc --toc-depth=6" else cmd
  let cmd := if options.numberSections then cmd ++ " --number-sections" else cmd
  let cmd := cmd ++ " --preserve-tabs"
  let cmd := if (["docx", "odt", "epub"] : List String).contains fromFormat then
    cmd ++ " --extract-media=./uploads/media" else cmd
  let cmd := if toFormat = "html" then
    (let cmd := cmd ++ " --self-contained --mathjax"
     if options.css then cmd ++ " --css=style.css" else cmd) else cmd
  let cmd := if toFormat = "pdf" then
    cmd ++ " --pdf-engine=pdflatex" ++ " --variable=geometry:margin=1in" else cmd
  let cmd := if toFormat = "docx" then cmd ++ " --reference-doc=reference.docx" else cmd
  let cmd := cmd ++ " --smart"
  let cmd := cmd ++ " --highlight-style=pygments"
  let cmd := cmd ++ " --wrap=preserve"
  let cmd := if options.bibliography then cmd ++ " --citeproc" else cmd
  cmd

/-- The same command line, as the ordered list of appended segments
(the base invocation followed by each conditionally appended flag
group).  `buildPandocCommand_eq_join` proves that joining these
segments yields exactly the string `buildPandocCommand` builds. -/
def pandocSegments (inputPath outputPath fromFormat toFormat : String)
    (options : OptionSet) : List String :=
  ["pandoc \x22" ++ inputPath ++ "\x22 -f " ++ fromFormat ++ " -t " ++ toFormat
    ++ " -o \x22" ++ outputPath ++ "\x22"]
  ++ (if (["html", "docx", "odt", "epub", "pdf"] : List String).contains toFormat then
      [" --standalone"] else [])
  ++ (if options.toc && (["html", "pdf", "docx", "epub"] : List String).contains toFormat then
      [" --toc --toc-depth=6"] else [])
  ++ (if options.numberSections then [" --number-sections"] else [])
  ++ [" --preserve-tabs"]
  ++ (if (["docx", "odt", "epub"] : List String).contains fromFormat then
      [" --extract-media=./uploads/media"] else [])
  ++ (if toFormat = "html" then
      [" --self-contained --mathjax"] ++ (if options.css then [" --css=style.css"] else [])
      else [])
  ++ (if toFormat = "pdf" then [" --pdf-engine=pdflatex", " --variable=geometry:margin=1in"]
      else [])
  ++ (if toFormat = "docx" then [" --reference-doc=reference.docx"] else [])
  ++ [" --smart", " --highlight-style=pygments", " --wrap=preserve"]
  ++ (if options.bibliography then [" --citeproc"] else [])

lemma string_join_cons (a : String) (l : List String) :
    String.join (a :: l) = a ++ String.join l := by
  have aux : ∀ (l : List String) (s : String),
      l.foldl (· ++ ·) s = s ++ l.foldl (· ++ ·) "" := by
    intro l
    induction l with
    | nil => intro s; simp
    | cons b bs ih =>
      intro s
      simp only [List.foldl_cons]
      rw [ih (s ++ b), ih ("" ++ b), String.empty_append, String.append_assoc]
  simp only [String.join, List.foldl_cons, String.empty_append]
  exact aux l a

lemma string_join_append (l₁ l₂ : List String) :
    String.join (l₁ ++ l₂) = String.join l₁ ++ String.join l₂ := by
  induction l₁ with
  | nil => simp [String.join]
  | cons a l ih =>
    simp only [List.cons_append, string_join_cons, ih, String.append_assoc]

lemma string_join_ite (c : Prop) [Decidable c] (l : List String) :
    String.join (if c then l else []) = (if c then String.join l else "") := by
  split <;> simp [String.join]

lemma string_join_nil : String.join ([] : List String) = "" := rfl

lemma string_join_singleton (x : String) : String.join [x] = x := by
  simp [String.join]

lemma ite_append (c : Prop) [Decidable c] (s x : String) :
    (if c then s ++ x else s) = s ++ (if c then x else "") := by
  split <;> simp

lemma ite_append_two (c : Prop) [Decidable c] (s x y : String) :
    (if c then s ++ x ++ y else s) = s ++ (if c then x ++ y else "") := by
  split <;> simp [String.append_assoc]

/-- The string builder and the segment list agree: `buildPandocCommand`
is the concatenation of `pandocSegments`. -/
theorem buildPandocCommand_eq_join (inputPath outputPath fromFormat toFormat : String)
    (options : OptionSet) :
    buildPandocCommand inputPath outputPath fromFormat toFormat options
      = String.join (pandocSegments inputPath outputPath fromFormat toFormat options) := by
  unfold buildPandocCommand pandocSegments
  simp only [ite_append, ite_append_two]
  simp only [string_join_append, string_join_cons, string_join_ite,
    string_join_singleton, string_join_nil, String.append_empty]
  simp [String.append_assoc]

lemma head_append_left (a b : String) (c : Char) (h : a.data.head? = some c) :
    (a ++ b).data.head? = some c := by
  rw [String.data_append, List.head?_append, h]
  rfl

/-- The base invocation segment always starts with the character `p`
(of `pandoc`), whatever the interpolated paths and formats are. -/
lemma pandocBase_head (inputPath outputPath fromFormat toFormat : String) :
    ("pandoc \x22" ++ inputPath ++ "\x22 -f " ++ fromFormat ++ " -t " ++ toFormat
      ++ " -o \x22" ++ outputPath ++ "\x22").data.head? = some 'p' := by
  repeat apply head_append_left
  decide

lemma base_ne_flag (inputPath outputPath fromFormat toFormat flag : String)
    (h : flag.data.head? ≠ some 'p') :
    ("pandoc \x22" ++ inputPath ++ "\x22 -f " ++ fromFormat ++ " -t " ++ toFormat
      ++ " -o \x22" ++ outputPath ++ "\x22") ≠ flag := by
  intro he
  apply h
  rw [← he]
  exact pandocBase_head inputPath outputPath fromFormat toFormat

lemma mem_ite_nil {α : Type} (a : α) (c : Prop) [Decidable c] (l : List α) :
    (a ∈ (if c then l else [])) ↔ (c ∧ a ∈ l) := by
  split <;> simp [*]

/-- C3: the built command carries the `--standalone` flag segment iff the
target format is one of html, docx, odt, epub, pdf. -/
theorem standalone_flag_iff (inputPath outputPath fromFormat toFormat : String)
    (options : OptionSet) :
    " --standalone" ∈ pandocSegments inputPath outputPath fromFormat toFormat options
      ↔ (toFormat = "html" ∨ toFormat = "docx" ∨ toFormat = "odt" ∨ toFormat = "epub"
          ∨ toFormat = "pdf") := by
  have hb := base_ne_flag inputPath outputPath fromFormat toFormat " --standalone" (by decide)
  simp [pandocSegments, mem_ite_nil, Ne.symm hb, List.contains]

/-- C4: the built command carries the table-of-contents flag segment
(fixed depth 6) iff the toc option is set and the target format is one
of html, pdf, docx, epub; in particular never for target markdown. -/
theorem toc_flag_iff (inputPath outputPath fromFormat toFormat : String)
    (options : OptionSet) :
    (" --toc --toc-depth=6" ∈ pandocSegments inputPath outputPath fromFormat toFormat options
      ↔ (options.toc = true ∧ (toFormat = "html" ∨ toFormat = "pdf" ∨ toFormat = "docx"
          ∨ toFormat = "epub"))) ∧
    " --toc --toc-depth=6" ∉ pandocSegments inputPath outputPath fromFormat "markdown" options := by
  have hb := base_ne_flag inputPath outputPath fromFormat toFormat " --toc --toc-depth=6"
    (by decide)
  have hb2 := base_ne_flag inputPath outputPath fromFormat "markdown" " --toc --toc-depth=6"
    (by decide)
  constructor
  · simp [pandocSegments, mem_ite_nil, Ne.symm hb, List.contains]
  · simp [pandocSegments, mem_ite_nil, Ne.symm hb2, List.contains]

/-- C6: the built command carries the media-extraction segment (into the
fixed relative directory ./uploads/media) iff the source format is one
of docx, odt, epub. -/
theorem extract_media_iff (inputPath outputPath fromFormat toFormat : String)
    (options : OptionSet) :
    " --extract-media=./uploads/media"
        ∈ pandocSegments inputPath outputPath fromFormat toFormat options
      ↔ (fromFormat = "docx" ∨ fromFormat = "odt" ∨ fromFormat = "epub") := by
  have hb := base_ne_flag inputPath outputPath fromFormat toFormat
    " --extract-media=./uploads/media" (by decide)
  simp [pandocSegments, mem_ite_nil, Ne.symm hb, List.contains]

lemma join_cons_extend (b : String) (l : List String) (pre mid suf : String)
    (hb : b = pre ++ mid ++ suf) :
    ∃ p s, String.join (b :: l) = p ++ mid ++ s :=
  ⟨pre, suf ++ String.join l, by rw [string_join_cons, hb]; simp [String.append_assoc]⟩

/-- C5: no validation is applied to the caller-supplied format strings:
whatever strings are passed as fromFormat and toFormat occur verbatim
inside the built command line. -/
theorem formats_interpolated_verbatim (inputPath outputPath fromFormat toFormat : String)
    (options : OptionSet) :
    (∃ p s, buildPandocCommand inputPath outputPath fromFormat toFormat options
        = p ++ fromFormat ++ s) ∧
    (∃ p s, buildPandocCommand inputPath outputPath fromFormat toFormat options
        = p ++ toFormat ++ s) := by
  rw [buildPandocCommand_eq_join]
  simp only [pandocSegments, List.singleton_append, List.cons_append]
  constructor
  · exact join_cons_extend _ _ ("pandoc \x22" ++ inputPath ++ "\x22 -f ") fromFormat
      (" -t " ++ toFormat ++ " -o \x22" ++ outputPath ++ "\x22")
      (by simp [String.append_assoc])
  · exact join_cons_extend _ _ ("pandoc \x22" ++ inputPath ++ "\x22 -f " ++ fromFormat ++ " -t ")
      toFormat (" -o \x22" ++ outputPath ++ "\x22") (by simp [String.append_assoc])

/-- The string `getOutputExtension` (server.js lines 319-337) yields
as own-key lookup with `.txt` default: this is its value for every
format outside the `Object.prototype` inherited keys.  The full
JavaScript property-lookup semantics including those keys is modelled
by `getOutputExtensionJs` below, and `getOutputExtensionJs_agrees`
ties the two off the prototype keys. -/
def getOutputExtension (format : String) : String :=
  if format = "markdown" then ".md"
  else if format = "html" then ".html"
  else if format = "docx" then ".docx"
  else if format = "odt" then ".odt"
  else if format = "epub" then ".epub"
  else if format = "pdf" then ".pdf"
  else if format = "latex" then ".tex"
  else if format = "rst" then ".rst"
  else if format = "textile" then ".textile"
  else if format = "org" then ".org"
  else if format = "mediawiki" then ".wiki"
  else if format = "rtf" then ".rtf"
  else if format = "plain" then ".txt"
  else if format = "json" then ".json"
  else ".txt"

/-- The (value, extension) pairs of the output-format catalog served by
`GET /api/formats` (server.js lines 172-187). -/
def outputFormats : List (String × String) :=
  [("markdown", ".md"), ("html", ".html"), ("docx", ".docx"), ("odt", ".odt"),
   ("epub", ".epub"), ("pdf", ".pdf"), ("latex", ".tex"), ("rst", ".rst"),
   ("textile", ".textile"), ("org", ".org"), ("mediawiki", ".wiki"),
   ("rtf", ".rtf"), ("plain", ".txt"), ("json", ".json")]

/-- Node `path.basename`: the part of the path after the last slash
(for the slash-free upload names and `downloads/...` paths this code
produces). -/
def pathBasename (p : String) : String :=
  ⟨(p.data.reverse.takeWhile (fun c => c ≠ '/')).reverse⟩

/-- Node `path.parse(p).name` extension stripping: drop everything from
the last dot on, unless that dot is the first character of the
basename. -/
def dropLastExt (cs : List Char) : List Char :=
  match cs.reverse.findIdx? (fun c => c = '.') with
  | none => cs
  | some j =>
    let i := cs.length - 1 - j
    if i > 0 then cs.take i else cs

/-- Node `path.parse(p).name`: the basename without its extension. -/
def parseName (p : String) : String :=
  ⟨dropLastExt (pathBasename p).data⟩

/-- Node `path.join(a, b)` for the already-normalized segments this
server joins. -/
def pathJoin (a b : String) : String :=
  a ++ "/" ++ b

/-- An uploaded multipart file as multer hands it to the route handler:
the client-supplied original name and the server-side storage path. -/
structure UploadedFile where
  originalname : String
  path : String
deriving Repr, DecidableEq

/-- The arguments `child_process.exec` passes to its callback, used as
an oracle modelling one subprocess run of the external engine:
`error = some msg` stands for a failed run whose Error has message
`msg`, `error = none` for exit code 0. -/
structure ExecResult where
  error : Option String
  stdout : String := ""
  stderr : String := ""
deriving Repr, DecidableEq

/-- Embedding of `convertFile` (server.js lines 122-137), parametrized
by the subprocess oracle `run`: on a reported error it rejects with
`Conversion failed: ` followed by stderr if non-empty (JS falsy check
`stderr || error.message`), else the Error message; on success it
resolves with the output path. -/
def convertFile (run : String → ExecResult) (inputPath outputPath fromFormat toFormat : String)
    (options : OptionSet) : Except String String :=
  let r := run (buildPandocCommand inputPath outputPath fromFormat toFormat options)
  match r.error with
  | some msg => Except.error ("Conversion failed: " ++ (if r.stderr = "" then msg else r.stderr))
  | none => Except.ok outputPath

/-- One entry of the `conversions` array the batch endpoint builds
(server.js lines 253-264). -/
structure Conversion where
  original : String
  converted : Option String := none
  path : Option String := none
  success : Bool
  error : Option String := none
deriving Repr, DecidableEq

/-- The output path derived for an uploaded file (server.js lines
204-206 and 247-249): `downloads/` + original base filename + `-` +
timestamp + target extension. -/
def derivedOutputPath (toFormat : String) (timestamp : Nat) (file : UploadedFile) : String :=
  pathJoin "downloads" (parseName file.originalname ++ "-" ++ toString timestamp
    ++ getOutputExtension toFormat)

/-- The body of the batch loop (server.js lines 245-266) for one file:
try the conversion, record a success entry (with converted basename and
path) or a failure entry (with the error message). -/
def convertOne (run : String → ExecResult) (fromFormat toFormat : String) (options : OptionSet)
    (timestamp : Nat) (file : UploadedFile) : Conversion :=
  let outputPath := derivedOutputPath toFormat timestamp file
  match convertFile run file.path outputPath fromFormat toFormat options with
  | Except.ok p =>
      { original := file.originalname, converted := some (pathBasename p), path := some p,
        success := true }
  | Except.error e =>
      { original := file.originalname, success := false, error := some e }

/-- The whole batch loop: each uploaded file is processed in upload
order with the shared batch timestamp; a failure is recorded and the
loop continues. -/
def runBatch (run : String → ExecResult) (fromFormat toFormat : String) (options : OptionSet)
    (timestamp : Nat) (files : List UploadedFile) : List Conversion :=
  files.map (convertOne run fromFormat toFormat options timestamp)

/-- The archive members added in server.js lines 304-308: for each
conversion with `success && path`, the file at `conv.path` under the
entry name `conv.converted`. -/
def archiveEntries (conversions : List Conversion) : List (String × String) :=
  conversions.filterMap (fun conv =>
    match conv.path with
    | some p => if conv.success then some (p, conv.converted.getD "") else none
    | none => none)

/-- Observable outcome of `POST /api/convert-batch`: an early client
error, or the archive download named `converted-documents.zip` with its
list of (file path, entry name) members. -/
inductive BatchResponse where
  | clientError (status : Nat) (errorMsg : String)
  | archiveDownload (downloadName : String) (entries : List (String × String))
deriving Repr, DecidableEq

/-- Embedding of the batch endpoint control flow (server.js lines
232-316): reject an empty upload set with 400, otherwise convert every
file and deliver the archive of the successful conversions. -/
def batchHandler (run : String → ExecResult) (files : List UploadedFile)
    (fromFormat toFormat : String) (options : OptionSet) (timestamp : Nat) : BatchResponse :=
  if files.length = 0 then BatchResponse.clientError 400 "No files uploaded"
  else
    let conversions := runBatch run fromFormat toFormat options timestamp files
    BatchResponse.archiveDownload "converted-documents.zip" (archiveEntries conversions)

/-- Observable outcome of `POST /api/convert`: an early client error, a
500 with the conversion error, or the converted file download. -/
inductive ConvertResponse where
  | clientError (status : Nat) (errorMsg : String)
  | serverError (status : Nat) (errorMsg : String)
  | fileDownload (filePath downloadName : String)
deriving Repr, DecidableEq

/-- Embedding of the single-file endpoint (server.js lines 194-229),
paired with the list of this request's temporary files still on disk
when the request completes.  The uploaded input exists once multer
stored it; the output exists once the engine succeeded.  Only the
`res.download` completion callback unlinks the input and output; the
catch branch (conversion failure) sends the 500 response without any
unlink, so the uploaded input survives it. -/
def convertHandler (run : String → ExecResult) (upload : Option UploadedFile)
    (fromFormat toFormat : String) (options : OptionSet) (timestamp : Nat) :
    ConvertResponse × List String :=
  match upload with
  | none => (ConvertResponse.clientError 400 "No file uploaded", [])
  | some file =>
    let inputPath := file.path
    let outputPath := derivedOutputPath toFormat timestamp file
    match convertFile run inputPath outputPath fromFormat toFormat options with
    | Except.error e =>
        let created := [inputPath]
        let deleted : List String := []
        (ConvertResponse.serverError 500 e, created.filter (fun f => ¬ deleted.contains f))
    | Except.ok p =>
        let created := [inputPath, p]
        let deleted := [inputPath, p]
        (ConvertResponse.fileDownload p
          (parseName file.originalname ++ getOutputExtension toFormat),
         created.filter (fun f => ¬ deleted.contains f))

lemma convertFile_ok_eq {run : String → ExecResult} {i o ff tf : String} {opts : OptionSet}
    {p : String} (h : convertFile run i o ff tf opts = Except.ok p) : p = o := by
  unfold convertFile at h
  cases hE : (run (buildPandocCommand i o ff tf opts)).error <;> simp [hE] at h
  simp_all

lemma convertOne_ok {run : String → ExecResult} {ff tf : String} {opts : OptionSet} {ts : Nat}
    {f : UploadedFile} {p : String}
    (h : convertFile run f.path (derivedOutputPath tf ts f) ff tf opts = Except.ok p) :
    convertOne run ff tf opts ts f
      = { original := f.originalname, converted := some (pathBasename p), path := some p,
          success := true } := by
  simp only [convertOne]
  rw [h]

lemma convertOne_err {run : String → ExecResult} {ff tf : String} {opts : OptionSet} {ts : Nat}
    {f : UploadedFile} {e : String}
    (h : convertFile run f.path (derivedOutputPath tf ts f) ff tf opts = Except.error e) :
    convertOne run ff tf opts ts f
      = { original := f.originalname, success := false, error := some e } := by
  simp only [convertOne]
  rw [h]

lemma convertOne_original (run : String → ExecResult) (ff tf : String) (opts : OptionSet)
    (ts : Nat) (f : UploadedFile) :
    (convertOne run ff tf opts ts f).original = f.originalname := by
  simp only [convertOne]
  cases convertFile run f.path (derivedOutputPath tf ts f) ff tf opts <;> rfl

lemma convertOne_success_path {run : String → ExecResult} {ff tf : String} {opts : OptionSet}
    {ts : Nat} {f : UploadedFile}
    (h : (convertOne run ff tf opts ts f).success = true) :
    (convertOne run ff tf opts ts f).path = some (derivedOutputPath tf ts f) := by
  cases hcv : convertFile run f.path (derivedOutputPath tf ts f) ff tf opts with
  | ok p =>
    rw [convertOne_ok hcv]
    simpa using convertFile_ok_eq hcv
  | error e =>
    rw [convertOne_err hcv] at h
    simp at h

lemma convertOne_fail_error {run : String → ExecResult} {ff tf : String} {opts : OptionSet}
    {ts : Nat} {f : UploadedFile}
    (h : (convertOne run ff tf opts ts f).success = false) :
    (convertOne run ff tf opts ts f).error.isSome = true := by
  cases hcv : convertFile run f.path (derivedOutputPath tf ts f) ff tf opts with
  | ok p =>
    rw [convertOne_ok hcv] at h
    simp at h
  | error e =>
    rw [convertOne_err hcv]
    rfl

lemma archiveEntries_runBatch (run : String → ExecResult) (ff tf : String) (opts : OptionSet)
    (ts : Nat) (files : List UploadedFile) :
    archiveEntries (runBatch run ff tf opts ts files)
      = (files.filter (fun file => (convertOne run ff tf opts ts file).success)).map
          (fun file => (derivedOutputPath tf ts file,
            pathBasename (derivedOutputPath tf ts file))) := by
  induction files with
  | nil => rfl
  | cons f fs ih =>
    simp only [runBatch, List.map_cons] at ih ⊢
    cases hcv : convertFile run f.path (derivedOutputPath tf ts f) ff tf opts with
    | ok p =>
      have hp := convertFile_ok_eq hcv
      subst hp
      simp [archiveEntries, List.filterMap_cons, convertOne_ok hcv, List.filter_cons, ih,
        archiveEntries] at ih ⊢
      exact ih
    | error e =>
      simp [archiveEntries, List.filterMap_cons, convertOne_err hcv, List.filter_cons, ih,
        archiveEntries] at ih ⊢
      exact ih

/-- C1: for any non-empty batch, every file is processed in upload
order, a failed file's error is recorded and the loop continues, and
the delivered response is the archive (never a server error, also when
every conversion failed) containing exactly one entry per successful
conversion, named by its derived output basename. -/
theorem batch_partial_failure_spec (run : String → ExecResult) (fromFormat toFormat : String)
    (options : OptionSet) (timestamp : Nat) (f : UploadedFile) (rest : List UploadedFile) :
    batchHandler run (f :: rest) fromFormat toFormat options timestamp
      = BatchResponse.archiveDownload "converted-documents.zip"
          (archiveEntries (runBatch run fromFormat toFormat options timestamp (f :: rest))) ∧
    (runBatch run fromFormat toFormat options timestamp (f :: rest)).map Conversion.original
      = (f :: rest).map UploadedFile.originalname ∧
    (∀ conv ∈ runBatch run fromFormat toFormat options timestamp (f :: rest),
      conv.success = false → conv.error.isSome = true) ∧
    archiveEntries (runBatch run fromFormat toFormat options timestamp (f :: rest))
      = ((f :: rest).filter
            (fun file => (convertOne run fromFormat toFormat options timestamp file).success)).map
          (fun file => (derivedOutputPath toFormat timestamp file,
            pathBasename (derivedOutputPath toFormat timestamp file))) := by
  refine ⟨by simp [batchHandler], ?_, ?_, archiveEntries_runBatch _ _ _ _ _ _⟩
  · simp [runBatch, List.map_map, Function.comp, convertOne_original]
  · intro conv hconv hfail
    simp only [runBatch, List.mem_map] at hconv
    obtain ⟨g, hg, rfl⟩ := hconv
    exact convertOne_fail_error hfail

/-- C7: the derived output path of a batch file is the original base
filename plus the shared batch timestamp plus the target extension, so
two files of the same batch with equal base filenames derive the same
output path, and when both convert successfully their recorded output
paths collide. -/
theorem batch_basename_collision (run : String → ExecResult) (fromFormat toFormat : String)
    (options : OptionSet) (timestamp : Nat) (f g : UploadedFile)
    (h : parseName f.originalname = parseName g.originalname) :
    derivedOutputPath toFormat timestamp f = derivedOutputPath toFormat timestamp g ∧
    ((convertOne run fromFormat toFormat options timestamp f).success = true →
      (convertOne run fromFormat toFormat options timestamp g).success = true →
      (convertOne run fromFormat toFormat options timestamp f).path
        = (convertOne run fromFormat toFormat options timestamp g).path) := by
  have hpath : derivedOutputPath toFormat timestamp f = derivedOutputPath toFormat timestamp g := by
    unfold derivedOutputPath
    rw [h]
  refine ⟨hpath, fun hf hg => ?_⟩
  rw [convertOne_success_path hf, convertOne_success_path hg, hpath]

/-- C7 witness: two distinct uploads sharing the base name `a` derive
the identical output path. -/
theorem batch_basename_collision_witness :
    parseName (UploadedFile.mk "a.md" "uploads/1-a.md").originalname
        = parseName (UploadedFile.mk "a.txt" "uploads/2-a.txt").originalname ∧
    (derivedOutputPath "html" 5 (UploadedFile.mk "a.md" "uploads/1-a.md")
        = derivedOutputPath "html" 5 (UploadedFile.mk "a.txt" "uploads/2-a.txt") ∧
      ((convertOne (fun _ => { error := none }) "markdown" "html" {} 5
            (UploadedFile.mk "a.md" "uploads/1-a.md")).success = true →
        (convertOne (fun _ => { error := none }) "markdown" "html" {} 5
            (UploadedFile.mk "a.txt" "uploads/2-a.txt")).success = true →
        (convertOne (fun _ => { error := none }) "markdown" "html" {} 5
            (UploadedFile.mk "a.md" "uploads/1-a.md")).path
          = (convertOne (fun _ => { error := none }) "markdown" "html" {} 5
              (UploadedFile.mk "a.txt" "uploads/2-a.txt")).path)) :=
  ⟨by decide,
   batch_basename_collision (fun _ => { error := none }) "markdown" "html" {} 5
     (UploadedFile.mk "a.md" "uploads/1-a.md") (UploadedFile.mk "a.txt" "uploads/2-a.txt")
     (by decide)⟩

/-- C2 as stated is false on the code: when the conversion fails, the
catch branch of the single-file endpoint answers 500 without unlinking
the uploaded input, so a file of the request is still on disk when the
request completes (here the stored upload `uploads/1-a.md`). -/
theorem single_cleanup_counterexample :
    ¬ ((convertHandler (fun _ => { error := some "boom" })
          (some (UploadedFile.mk "a.md" "uploads/1-a.md")) "markdown" "html" {} 5).2 = []) := by
  decide

/-- C2 amended: after a single-file request, no file of the request
remains only if the conversion succeeded (the download callback unlinks
input and output); on a conversion failure exactly the uploaded input
remains. -/
theorem single_cleanup_amended (run : String → ExecResult) (file : UploadedFile)
    (fromFormat toFormat : String) (options : OptionSet) (timestamp : Nat) :
    (convertHandler run (some file) fromFormat toFormat options timestamp).2
      = (if (convertFile run file.path (derivedOutputPath toFormat timestamp file)
              fromFormat toFormat options).isOk then [] else [file.path]) := by
  unfold convertHandler
  cases hcv : convertFile run file.path (derivedOutputPath toFormat timestamp file)
      fromFormat toFormat options with
  | ok p => simp [hcv, Except.isOk, Except.toBool, List.filter]
  | error e => simp [hcv, Except.isOk, Except.toBool, List.filter]

/-- C8: the Single Converter rejects with the engine's stderr when that
text is non-empty and with the generic Error message otherwise, and on
a clean exit resolves with the output path (nothing but the reported
exec outcome is consulted). -/
theorem convertFile_error_reporting (run : String → ExecResult)
    (inputPath outputPath fromFormat toFormat : String) (options : OptionSet) :
    (∀ msg,
      (run (buildPandocCommand inputPath outputPath fromFormat toFormat options)).error = some msg →
      convertFile run inputPath outputPath fromFormat toFormat options
        = Except.error ("Conversion failed: "
            ++ (if (run (buildPandocCommand inputPath outputPath fromFormat toFormat
                    options)).stderr = ""
                then msg
                else (run (buildPandocCommand inputPath outputPath fromFormat toFormat
                    options)).stderr))) ∧
    ((run (buildPandocCommand inputPath outputPath fromFormat toFormat options)).error = none →
      convertFile run inputPath outputPath fromFormat toFormat options
        = Except.ok outputPath) := by
  constructor
  · intro msg hE
    simp only [convertFile]
    rw [hE]
  · intro hE
    simp only [convertFile]
    rw [hE]

/-- C8 witness: with stderr `diag` the diagnostic text is reported;
with a clean exit the output path is returned. -/
theorem convertFile_error_reporting_witness :
    convertFile (fun _ => { error := some "msg", stderr := "diag" }) "u" "d" "markdown" "html" {}
        = Except.error "Conversion failed: diag" ∧
    convertFile (fun _ => { error := none }) "u" "d" "markdown" "html" {} = Except.ok "d" :=
  ⟨by simpa using
      (convertFile_error_reporting (fun _ => { error := some "msg", stderr := "diag" })
        "u" "d" "markdown" "html" {}).1 "msg" rfl,
   (convertFile_error_reporting (fun _ => { error := none }) "u" "d" "markdown" "html" {}).2 rfl⟩

/-- C9: an empty upload set is rejected with status 400 and a JSON
error body by both conversion endpoints, before any processing: the
response does not depend on the conversion oracle at all, and no file
of the request is left behind. -/
theorem empty_upload_fast_reject (run run2 : String → ExecResult) (fromFormat toFormat : String)
    (options : OptionSet) (timestamp : Nat) :
    convertHandler run none fromFormat toFormat options timestamp
      = (ConvertResponse.clientError 400 "No file uploaded", []) ∧
    batchHandler run [] fromFormat toFormat options timestamp
      = BatchResponse.clientError 400 "No files uploaded" ∧
    convertHandler run none fromFormat toFormat options timestamp
      = convertHandler run2 none fromFormat toFormat options timestamp ∧
    batchHandler run [] fromFormat toFormat options timestamp
      = batchHandler run2 [] fromFormat toFormat options timestamp :=
  ⟨rfl, rfl, rfl, rfl⟩

lemma getOutputExtension_catalog : ∀ p ∈ outputFormats, getOutputExtension p.1 = p.2 := by
  decide

lemma outputFormats_ext_ne_empty : ∀ p ∈ outputFormats, p.2 ≠ "" := by
  decide

lemma getOutputExtension_default (format : String)
    (h : ∀ p ∈ outputFormats, p.1 ≠ format) : getOutputExtension format = ".txt" := by
  unfold getOutputExtension
  rw [if_neg (Ne.symm (h ("markdown", ".md") (by decide))),
      if_neg (Ne.symm (h ("html", ".html") (by decide))),
      if_neg (Ne.symm (h ("docx", ".docx") (by decide))),
      if_neg (Ne.symm (h ("odt", ".odt") (by decide))),
      if_neg (Ne.symm (h ("epub", ".epub") (by decide))),
      if_neg (Ne.symm (h ("pdf", ".pdf") (by decide))),
      if_neg (Ne.symm (h ("latex", ".tex") (by decide))),
      if_neg (Ne.symm (h ("rst", ".rst") (by decide))),
      if_neg (Ne.symm (h ("textile", ".textile") (by decide))),
      if_neg (Ne.symm (h ("org", ".org") (by decide))),
      if_neg (Ne.symm (h ("mediawiki", ".wiki") (by decide))),
      if_neg (Ne.symm (h ("rtf", ".rtf") (by decide))),
      if_neg (Ne.symm (h ("plain", ".txt") (by decide))),
      if_neg (Ne.symm (h ("json", ".json") (by decide)))]

lemma getOutputExtension_ne_empty (s : String) : getOutputExtension s ≠ "" := by
  by_cases hc : ∀ p ∈ outputFormats, p.1 ≠ s
  · rw [getOutputExtension_default s hc]
    decide
  · push_neg at hc
    obtain ⟨p, hp, hps⟩ := hc
    rw [← hps, getOutputExtension_catalog p hp]
    exact outputFormats_ext_ne_empty p hp

/-- The fourteen own (key, value) entries of the `extensions` object
literal in `getOutputExtension` (server.js lines 320-335). -/
def extensionsTable : List (String × String) :=
  [("markdown", ".md"), ("html", ".html"), ("docx", ".docx"), ("odt", ".odt"),
   ("epub", ".epub"), ("pdf", ".pdf"), ("latex", ".tex"), ("rst", ".rst"),
   ("textile", ".textile"), ("org", ".org"), ("mediawiki", ".wiki"),
   ("rtf", ".rtf"), ("plain", ".txt"), ("json", ".json")]

/-- The property keys every plain object literal inherits from
`Object.prototype`; the `extensions` literal shadows none of them, so
`extensions[k]` evaluates to the inherited member for these k. -/
def objectPrototypeKeys : List String :=
  ["constructor", "hasOwnProperty", "isPrototypeOf", "propertyIsEnumerable",
   "toLocaleString", "toString", "valueOf", "__defineGetter__", "__defineSetter__",
   "__lookupGetter__", "__lookupSetter__", "__proto__"]

/-- What `extensions[format] || '.txt'` (server.js line 336) evaluates
to in JavaScript: a string (an own entry, all truthy, or the `.txt`
fallback when the lookup was undefined), or the truthy function/object
member inherited from `Object.prototype` when `format` is one of its
property keys — on those the `|| '.txt'` fallback never fires. -/
inductive JsPropertyValue where
  | str (s : String)
  | protoMember (name : String)
deriving Repr, DecidableEq

/-- Embedding of `getOutputExtension` (server.js lines 319-337) with
full JavaScript property-lookup semantics: own key first, then the
`Object.prototype` chain, and the `|| '.txt'` fallback only when the
property lookup produced undefined. -/
def getOutputExtensionJs (format : String) : JsPropertyValue :=
  match List.lookup format extensionsTable with
  | some v => JsPropertyValue.str v
  | none =>
    if format ∈ objectPrototypeKeys then JsPropertyValue.protoMember format
    else JsPropertyValue.str ".txt"

lemma lookup_eq_none_of_forall {β : Type} (a : String) (l : List (String × β))
    (h : ∀ p ∈ l, p.1 ≠ a) : List.lookup a l = none := by
  induction l with
  | nil => rfl
  | cons p ps ih =>
    obtain ⟨k, v⟩ := p
    have hk : k ≠ a := h (k, v) (List.mem_cons_self _ _)
    have hB : (a == k) = false := beq_eq_false_iff_ne.mpr (fun hak => hk hak.symm)
    simp only [List.lookup, hB]
    exact ih (fun q hq => h q (List.mem_cons_of_mem _ hq))

lemma lookup_some_mem {β : Type} (a : String) (l : List (String × β)) (v : β)
    (h : List.lookup a l = some v) : (a, v) ∈ l := by
  induction l with
  | nil => simp [List.lookup] at h
  | cons p ps ih =>
    obtain ⟨k, w⟩ := p
    by_cases hak : a = k
    · subst hak
      simp only [List.lookup, beq_self_eq_true] at h
      injection h with h
      subst h
      exact List.mem_cons_self _ _
    · have hB : (a == k) = false := beq_eq_false_iff_ne.mpr hak
      simp only [List.lookup, hB] at h
      exact List.mem_cons_of_mem _ (ih h)

lemma getOutputExtensionJs_catalog :
    ∀ p ∈ extensionsTable, getOutputExtensionJs p.1 = JsPropertyValue.str p.2 := by
  decide

lemma extensionsTable_values_ne_empty : ∀ p ∈ extensionsTable, p.2 ≠ "" := by
  decide

lemma outputFormats_eq_extensionsTable : outputFormats = extensionsTable := rfl

/-- Off the inherited `Object.prototype` keys, the full JavaScript
lookup agrees with the string-valued `getOutputExtension` used by the
path-derivation model. -/
lemma getOutputExtensionJs_agrees (s : String) (hs : s ∉ objectPrototypeKeys) :
    getOutputExtensionJs s = JsPropertyValue.str (getOutputExtension s) := by
  by_cases hown : ∀ p ∈ extensionsTable, p.1 ≠ s
  · have h2 : getOutputExtension s = ".txt" :=
      getOutputExtension_default s (by rw [outputFormats_eq_extensionsTable]; exact hown)
    unfold getOutputExtensionJs
    rw [lookup_eq_none_of_forall s extensionsTable hown, h2]
    exact if_neg hs
  · push_neg at hown
    obtain ⟨p, hp, hps⟩ := hown
    subst hps
    rw [getOutputExtensionJs_catalog p hp,
      getOutputExtension_catalog p (by rw [outputFormats_eq_extensionsTable]; exact hp)]

/-- C10 as stated is false on the program: `constructor` is not one of
the fourteen catalog formats, yet `extensions['constructor']` is the
truthy function inherited from `Object.prototype`, so the `|| '.txt'`
fallback never fires and the result is not `.txt`. -/
theorem getOutputExtensionJs_counterexample :
    (∀ p ∈ extensionsTable, p.1 ≠ "constructor") ∧
    getOutputExtensionJs "constructor" ≠ JsPropertyValue.str ".txt" ∧
    getOutputExtensionJs "constructor" = JsPropertyValue.protoMember "constructor" := by
  decide

/-- C10 amended: the lookup returns the catalog extension on each of
the fourteen enumerated output formats; on every other string that is
not an inherited `Object.prototype` key it returns `.txt`; on an
inherited key it returns the inherited member instead of `.txt`; and
off the prototype keys the result is always a non-empty extension
string. -/
theorem getOutputExtensionJs_spec (format : String)
    (hown : ∀ p ∈ extensionsTable, p.1 ≠ format) :
    (∀ p ∈ extensionsTable, getOutputExtensionJs p.1 = JsPropertyValue.str p.2) ∧
    (format ∉ objectPrototypeKeys → getOutputExtensionJs format = JsPropertyValue.str ".txt") ∧
    (format ∈ objectPrototypeKeys
      → getOutputExtensionJs format = JsPropertyValue.protoMember format) ∧
    (∀ s, s ∉ objectPrototypeKeys
      → ∃ e, getOutputExtensionJs s = JsPropertyValue.str e ∧ e ≠ "") := by
  refine ⟨getOutputExtensionJs_catalog, fun hnp => ?_, fun hpk => ?_, fun s hs => ?_⟩
  · unfold getOutputExtensionJs
    rw [lookup_eq_none_of_forall format extensionsTable hown]
    exact if_neg hnp
  · unfold getOutputExtensionJs
    rw [lookup_eq_none_of_forall format extensionsTable hown]
    exact if_pos hpk
  · cases hL : List.lookup s extensionsTable with
    | some v =>
      refine ⟨v, ?_,
        extensionsTable_values_ne_empty (s, v) (lookup_some_mem s extensionsTable v hL)⟩
      unfold getOutputExtensionJs
      rw [hL]
    | none =>
      refine ⟨".txt", ?_, by decide⟩
      unfold getOutputExtensionJs
      rw [hL]
      exact if_neg hs

/-- C10 witness: `pptx` is neither a catalog format nor a prototype
key, so the `.txt` fallback fires and yields a non-empty extension. -/
theorem getOutputExtensionJs_spec_witness :
    (∀ p ∈ extensionsTable, getOutputExtensionJs p.1 = JsPropertyValue.str p.2) ∧
    ("pptx" ∉ objectPrototypeKeys → getOutputExtensionJs "pptx" = JsPropertyValue.str ".txt") ∧
    ("pptx" ∈ objectPrototypeKeys
      → getOutputExtensionJs "pptx" = JsPropertyValue.protoMember "pptx") ∧
    (∀ s, s ∉ objectPrototypeKeys
      → ∃ e, getOutputExtensionJs s = JsPropertyValue.str e ∧ e ≠ "") :=
  getOutputExtensionJs_spec "pptx" (by decide)

/-- C1 witness: a one-file batch whose only conversion fails is still
answered with the (empty) archive, with the failure recorded. -/
theorem batch_partial_failure_witness :
    batchHandler (fun _ => { error := some "x", stderr := "bad" })
        ((UploadedFile.mk "a.md" "uploads/1-a.md") :: []) "markdown" "html" {} 5
      = BatchResponse.archiveDownload "converted-documents.zip"
          (archiveEntries (runBatch (fun _ => { error := some "x", stderr := "bad" })
            "markdown" "html" {} 5 ((UploadedFile.mk "a.md" "uploads/1-a.md") :: []))) ∧
    (runBatch (fun _ => { error := some "x", stderr := "bad" }) "markdown" "html" {} 5
        ((UploadedFile.mk "a.md" "uploads/1-a.md") :: [])).map Conversion.original
      = ((UploadedFile.mk "a.md" "uploads/1-a.md") :: []).map UploadedFile.originalname ∧
    (∀ conv ∈ runBatch (fun _ => { error := some "x", stderr := "bad" }) "markdown" "html" {} 5
        ((UploadedFile.mk "a.md" "uploads/1-a.md") :: []),
      conv.success = false → conv.error.isSome = true) ∧
    archiveEntries (runBatch (fun _ => { error := some "x", stderr := "bad" })
        "markdown" "html" {} 5 ((UploadedFile.mk "a.md" "uploads/1-a.md") :: []))
      = (((UploadedFile.mk "a.md" "uploads/1-a.md") :: []).filter
            (fun file => (convertOne (fun _ => { error := some "x", stderr := "bad" })
              "markdown" "html" {} 5 file).success)).map
          (fun file => (derivedOutputPath "html" 5 file,
            pathBasename (derivedOutputPath "html" 5 file))) :=
  batch_partial_failure_spec (fun _ => { error := some "x", stderr := "bad" })
    "markdown" "html" {} 5 (UploadedFile.mk "a.md" "uploads/1-a.md") []
